import Mathlib

/-!
Verification of the AI-Resume-Tailoring-Assistant repository.

This file shallowly embeds the two locally authored pieces of the
repository and proves their specified properties:

* `Md` — the line-oriented markdown classifier of
  `markdown_to_ats_pdf` in `src/app.py` (lines 252-290).  Lines are
  modelled as `List Char`; a line is stripped, classified into exactly
  one `Block`, and each `Block` carries the text handed to the layout
  engine.

* `PdfUtils` — the fallback text-flow renderer of
  `markdown_to_ats_pdf` in `src/utils/pdf_generator.py` (the
  reportlab branch taken when the primary wkhtmltopdf path raises).

* `Pipeline` — the four-task CrewAI chain built by `run_crew` in
  `src/app.py`, together with a sequential execution model of the
  delegated engine (modelled from the spec, which treats the engine as
  an opaque `execute(TaskSpec, contextTexts) -> TaskResult`).
-/

namespace Md

/-- Whitespace characters removed by Python's `str.strip()` (ASCII part). -/
def isSpaceChar (c : Char) : Bool :=
  c == ' ' || c == '\t' || c == '\n' || c == '\r' || c == '\x0b' || c == '\x0c'

/-- Python `line.strip()`: drop leading and trailing whitespace. -/
def pstrip (l : List Char) : List Char :=
  ((l.dropWhile isSpaceChar).reverse.dropWhile isSpaceChar).reverse

/-- Python `s.startswith(p)` on character lists. -/
def pfx : List Char → List Char → Bool
  | [], _ => true
  | _ :: _, [] => false
  | a :: ps, b :: bs => a == b && pfx ps bs

/-- Python `re.match(r'^\d+\. ', line)`: one or more digits, then `". "`.
`\d` is modelled as the ASCII digits, the only ones appearing in the data. -/
def isNumbered (s : List Char) : Bool :=
  let ds := s.takeWhile Char.isDigit
  !ds.isEmpty && pfx ['.', ' '] (s.drop ds.length)

/-- Python `str.replace(⟨the two-character pattern a,b⟩, '')`:
remove every non-overlapping occurrence, scanning left to right. -/
def repl2 (a b : Char) : List Char → List Char
  | [] => []
  | [x] => [x]
  | x :: y :: rest =>
    if x == a && y == b then repl2 a b rest
    else x :: repl2 a b (y :: rest)

/-- Python `str.replace(⟨the single character a⟩, '')`: remove every occurrence. -/
def repl1 (a : Char) (l : List Char) : List Char :=
  l.filter (fun c => !(c == a))

/-- `line.replace('**', '').replace('__', '').replace('*', '').replace('_', '')`
from the `else` branch of the classifier (src/app.py line 289). -/
def removeEmph (l : List Char) : List Char :=
  repl1 '_' (repl1 '*' (repl2 '_' '_' (repl2 '*' '*' l)))

/-- One classified line of the resume markdown, carrying its literal text
(the text handed to the layout engine; the bullet glyph of a `Bullet` is
styling, added by `blockText`). -/
inductive Block where
  | Title (t : List Char)
  | Heading (t : List Char)
  | SubHeading (t : List Char)
  | Bullet (t : List Char)
  | NumberedItem (t : List Char)
  | Plain (t : List Char)
  | Blank
  deriving DecidableEq

/-- The classifier of `markdown_to_ats_pdf` in src/app.py (lines 254-290),
applied to an already stripped line: the `if not line` / `startswith` /
regex chain, first match wins. -/
def classifyStripped (line : List Char) : Block :=
  if line = [] then .Blank
  else if pfx ['#', ' '] line then .Title (pstrip (line.drop 2))
  else if pfx ['#', '#', ' '] line then .Heading (pstrip (line.drop 3))
  else if pfx ['#', '#', '#', ' '] line then .SubHeading (pstrip (line.drop 4))
  else if pfx ['-', ' '] line || pfx ['*', ' '] line then .Bullet (pstrip (line.drop 2))
  else if isNumbered line then .NumberedItem line
  else .Plain (removeEmph line)

/-- A raw input line: stripped first (`line = line.strip()`), then classified. -/
def classifyLine (l : List Char) : Block :=
  classifyStripped (pstrip l)

/-- The literal text of the paragraph emitted for a block
(`'• ' + ...` for bullets, empty for the blank spacer). -/
def blockText : Block → List Char
  | .Title t => t
  | .Heading t => t
  | .SubHeading t => t
  | .Bullet t => '•' :: ' ' :: t
  | .NumberedItem t => t
  | .Plain t => t
  | .Blank => []

/-- Python `content.split('\n')` (keeps a trailing empty piece). -/
def splitLines : List Char → List (List Char)
  | [] => [[]]
  | '\n' :: rest => [] :: splitLines rest
  | c :: rest =>
    match splitLines rest with
    | [] => [[c]]
    | h :: t => (c :: h) :: t

/-- The block sequence produced by `markdown_to_ats_pdf` for a whole
markdown document: split into lines, one block per line. -/
def renderBlocks (content : List Char) : List Block :=
  (splitLines content).map classifyLine

/-- Is a block the blank spacer? -/
def isBlankBlock : Block → Bool
  | .Blank => true
  | _ => false

/-- Characters that are formatting markers of the recognized grammar:
heading hashes, emphasis stars and underscores, the bullet dash and the
substituted bullet glyph.  The round-trip property compares lines with
these characters ignored. -/
def keepChar (c : Char) : Bool :=
  !(c == '#') && !(c == '*') && !(c == '_') && !(c == '-') && !(c == '•')

/-- Word splitter (whitespace separated, empties dropped), with an
explicit accumulator for the word being read (stored reversed). -/
def wordsAcc : List Char → List Char → List (List Char)
  | [], acc => if acc.isEmpty then [] else [acc.reverse]
  | c :: rest, acc =>
    if isSpaceChar c then
      if acc.isEmpty then wordsAcc rest [] else acc.reverse :: wordsAcc rest []
    else wordsAcc rest (c :: acc)

/-- The whitespace-separated words of a line. -/
def words (l : List Char) : List (List Char) :=
  wordsAcc l []

/-- The semantic words of a line: its words once every formatting-marker
character is ignored. -/
def SW (l : List Char) : List (List Char) :=
  words (l.filter keepChar)

/-- Emphasis-marker characters (`*` and `_`). -/
def emphChar (c : Char) : Bool :=
  c == '*' || c == '_'

/-- How many emphasis-marker characters a piece of text holds. -/
def emphCount (l : List Char) : Nat :=
  l.countP emphChar

end Md

namespace PdfUtils

open Md (pstrip pfx)

/-- The four paragraph styles used by the fallback renderer of
`markdown_to_ats_pdf` in src/utils/pdf_generator.py: `Heading1`,
`Heading2`, `Heading3` and `Normal`. -/
inductive FbStyle where
  | heading1
  | heading2
  | heading3
  | normal
  deriving DecidableEq

/-- One element appended to the fallback `story`: a styled paragraph or
the unconditional spacer. -/
inductive FbItem where
  | para (style : FbStyle) (text : List Char)
  | spacer
  deriving DecidableEq

/-- The fallback loop body applied to an already stripped line
(src/utils/pdf_generator.py, reportlab branch): the
`# `/`## `/`### `/non-empty chain, and a spacer appended on every
iteration. -/
def fbStrippedItems (line : List Char) : List FbItem :=
  (if pfx ['#', ' '] line then [.para .heading1 (line.drop 2)]
   else if pfx ['#', '#', ' '] line then [.para .heading2 (line.drop 3)]
   else if pfx ['#', '#', '#', ' '] line then [.para .heading3 (line.drop 4)]
   else if !line.isEmpty then [.para .normal line]
   else []) ++ [.spacer]

/-- The fallback loop body for one raw line: `line = line.strip()` first. -/
def fbLineItems (l : List Char) : List FbItem :=
  fbStrippedItems (pstrip l)

/-- The whole fallback `story` for a list of source lines. -/
def fallbackStory (lines : List (List Char)) : List FbItem :=
  lines.flatMap fbLineItems

/-- The outcome of `markdown_to_ats_pdf` in src/utils/pdf_generator.py:
either the primary wkhtmltopdf bytes or the fallback reportlab document. -/
inductive PdfResult where
  | primary (bytes : List Nat)
  | fallbackDoc (story : List FbItem)
  deriving DecidableEq

/-- Control flow of `markdown_to_ats_pdf` in src/utils/pdf_generator.py:
the primary engine's outcome is delegated (modelled as an optional byte
string), on its failure the fallback story is built (its layout engine's
success modelled by `buildOk`), and if that fails too the function
returns `None`. -/
def markdown_to_ats_pdf (primary : Option (List Nat)) (buildOk : Bool)
    (lines : List (List Char)) : Option PdfResult :=
  match primary with
  | some b => some (.primary b)
  | none => if buildOk then some (.fallbackDoc (fallbackStory lines)) else none

/-- The texts of the styled paragraphs of a story, in order. -/
def paraTexts (story : List FbItem) : List (List Char) :=
  story.filterMap fun i =>
    match i with
    | .para _ t => some t
    | .spacer => none

/-- The styles of the styled paragraphs of a story, in order. -/
def paraStyles (story : List FbItem) : List FbStyle :=
  story.filterMap fun i =>
    match i with
    | .para st _ => some st
    | .spacer => none

/-- The text the fallback renderer keeps for one non-empty stripped line:
the line with its heading marker (if any) removed. -/
def fbText (line : List Char) : List Char :=
  if pfx ['#', ' '] line then line.drop 2
  else if pfx ['#', '#', ' '] line then line.drop 3
  else if pfx ['#', '#', '#', ' '] line then line.drop 4
  else line

end PdfUtils

namespace Pipeline

/-- One CrewAI `Task(...)` as constructed in `run_crew` (src/app.py):
its prompt fields, the `output_file` argument, and `context` as the list
of the tasks (by id) whose outputs feed it. -/
structure TaskSpec where
  id : String
  description : String
  expected_output : String
  agent : String
  async_execution : Bool
  output_file : Option String
  context : List String

/-- Task 1 of `run_crew`: job analysis (src/app.py lines 493-508). -/
def research_task (job_url : String) : TaskSpec :=
  ⟨"research_task",
   "Thoroughly analyze the job posting at " ++ job_url ++ ". Extract and categorize:\n" ++
   "- Required technical skills and technologies\n" ++
   "- Preferred qualifications and certifications\n" ++
   "- Key responsibilities and expectations\n" ++
   "- Company culture indicators\n" ++
   "- Specific keywords used in the posting (important for ATS)",
   "A detailed breakdown of job requirements including must-have skills, " ++
   "nice-to-have qualifications, and ATS keywords to incorporate.",
   "Tech Job Researcher", true, none, []⟩

/-- Task 2 of `run_crew`: candidate profiling (src/app.py lines 511-526). -/
def profile_task (github writeup resume_file : String) : TaskSpec :=
  ⟨"profile_task",
   "Build a comprehensive profile using:\n" ++
   "- GitHub: " ++ github ++ "\n" ++
   "- Resume file: " ++ resume_file ++ "\n" ++
   "- Personal statement: " ++ writeup ++ "\n\n" ++
   "Identify all relevant skills, projects, achievements, and experiences that " ++
   "could match job requirements. Look for transferable skills and unique strengths.",
   "A complete professional profile highlighting technical skills, soft skills, " ++
   "notable projects, achievements, and unique value propositions.",
   "Personal Profiler for Engineers", true, none, []⟩

/-- Task 3 of `run_crew`: resume tailoring, consuming the outputs of
tasks 1 and 2, in that order (src/app.py lines 529-548). -/
def resume_strategy_task : TaskSpec :=
  ⟨"resume_strategy_task",
   "Create an ATS-optimized, tailored resume that:\n" ++
   "1. Incorporates job posting keywords naturally\n" ++
   "2. Highlights most relevant experiences first\n" ++
   "3. Quantifies achievements with metrics\n" ++
   "4. Uses action verbs and industry terminology\n" ++
   "5. Maintains clean, single-column ATS-friendly format\n" ++
   "6. Includes a compelling professional summary\n" ++
   "7. Emphasizes skills matching job requirements\n\n" ++
   "IMPORTANT: Do NOT fabricate information. Only enhance and reorganize existing content.",
   "A complete, ATS-friendly resume in markdown format with sections: " ++
   "Professional Summary, Technical Skills, Work Experience, Projects, Education, and Certifications.",
   "Resume Strategist for Engineers", false, some "tailored_resume.md",
   ["research_task", "profile_task"]⟩

/-- Task 4 of `run_crew`: interview preparation, consuming the outputs
of tasks 1, 2 and 3 (src/app.py lines 551-570). -/
def interview_preparation_task : TaskSpec :=
  ⟨"interview_preparation_task",
   "Generate the TOP 10 most likely interview questions based on:\n" ++
   "- Job requirements and responsibilities\n" ++
   "- Candidate's resume and background\n" ++
   "- Industry best practices\n\n" ++
   "For each question, provide:\n" ++
   "1. The interview question\n" ++
   "2. Why this question might be asked\n" ++
   "3. Key points to address in the answer\n" ++
   "4. Suggested talking points from the candidate's experience",
   "Top 10 interview questions with detailed guidance, strategic talking points, " ++
   "and suggestions on how to connect answers to resume highlights.",
   "Engineering Interview Preparer", false, some "interview_materials.md",
   ["research_task", "profile_task", "resume_strategy_task"]⟩

/-- The ordered task chain handed to the `Crew` (src/app.py line 575). -/
def crewTasks (job_url github writeup resume_file : String) : List TaskSpec :=
  [research_task job_url, profile_task github writeup resume_file,
   resume_strategy_task, interview_preparation_task]

/-- Modelled from the spec: the delegated multi-agent execution engine
(the external `Crew.kickoff`, absent from src/) is an opaque
`execute(TaskSpec, contextTexts) -> TaskResult` capability that may fail
with a textual error. -/
def Exec : Type :=
  TaskSpec → List String → Except String String

/-- The result of one pipeline run: the task results, the files written
(`output_file`, contents), the `(task id, context texts)` trace of the
engine calls actually made, in order, and the error that aborted the run,
if any. -/
structure RunOut where
  results : List (String × String)
  files : List (String × String)
  trace : List (String × List String)
  failure : Option String

/-- The outputs of a task's declared context tasks, in declaration order. -/
def contextTexts (results : List (String × String)) (deps : List String) : List String :=
  deps.filterMap fun i => (results.find? fun p => p.1 == i).map (·.2)

/-- Modelled from the spec: sequential execution of the task chain.
Each task receives the outputs of its context tasks; a task with an
`output_file` has its output written once it completes; if the engine
raises for any step the whole run aborts and later steps never execute. -/
def runTasks (exec : Exec) : List TaskSpec → List (String × String) →
    List (String × String) → List (String × List String) → RunOut
  | [], results, files, trace => ⟨results, files, trace, none⟩
  | t :: rest, results, files, trace =>
    let ctx := contextTexts results t.context
    match exec t ctx with
    | .error e => ⟨results, files, trace ++ [(t.id, ctx)], some e⟩
    | .ok txt =>
      let files' := match t.output_file with
        | some f => files ++ [(f, txt)]
        | none => files
      runTasks exec rest (results ++ [(t.id, txt)]) files' (trace ++ [(t.id, ctx)])

/-- `run_crew` (src/app.py lines 487-586): build the four tasks and
execute them through the delegated engine. -/
def runCrew (exec : Exec) (job_url github writeup resume_file : String) : RunOut :=
  runTasks exec (crewTasks job_url github writeup resume_file) [] [] []

/-- Python truthiness of an optional string (`None` and `""` are falsy). -/
def pyTruthy : Option String → Bool
  | none => false
  | some s => !(s == "")

/-- `check_api_keys` (src/app.py lines 116-135): `False` (after showing a
configuration error) when either key is missing, `True` otherwise. -/
def check_api_keys (groq serper : Option String) : Bool :=
  if !pyTruthy groq || !pyTruthy serper then false else true

/-- The guard of the process-button handler (src/app.py lines 590-593):
`if not check_api_keys(): st.stop()` — the run starts only when the check
passes. -/
def processStarts (groq serper : Option String) : Bool :=
  if !check_api_keys groq serper then false else true

/-- What the user is shown for an error surfaced in the handler. -/
structure ErrorReport where
  message : String
  detail : String
  hint : String
  deriving DecidableEq

/-- The `except` block of the process-button handler (src/app.py lines
720-724): one error banner embedding `str(e)`, the exception detail in an
expander, and one fixed informational hint. -/
def handle_run_error (e : String) : ErrorReport :=
  ⟨"❌ An error occurred: " ++ e, e,
   "💡 Try checking your API keys or simplifying your inputs"⟩

/-- An engine behaviour where the job-analysis step raises a rate-limit
error; used to exhibit concrete aborted runs. -/
def execFailJob : Exec :=
  fun t _ =>
    if t.id == "research_task" then .error "RateLimitError: 429 Too Many Requests"
    else .ok "generated text"

/-- An engine behaviour where every step succeeds with a canned string;
used to exhibit concrete complete runs. -/
def execAllOk : Exec :=
  fun _ _ => .ok "canned output"

end Pipeline

/-! Helper lemmas about the classifier and the semantic-word measure. -/

namespace Md

theorem keep_of_space {c : Char} (h : isSpaceChar c = true) : keepChar c = true := by
  simp only [isSpaceChar, Bool.or_eq_true, beq_iff_eq] at h
  rcases h with ((((h | h) | h) | h) | h) | h <;> subst h <;> rfl

theorem filter_keep_spaces (t : List Char) (ht : ∀ c ∈ t, isSpaceChar c = true) :
    t.filter keepChar = t :=
  List.filter_eq_self.mpr fun c hc => keep_of_space (ht c hc)

theorem wordsAcc_spaces :
    ∀ t : List Char, (∀ c ∈ t, isSpaceChar c = true) → ∀ acc, wordsAcc t acc = wordsAcc [] acc := by
  intro t
  induction t with
  | nil => intro _ _; rfl
  | cons c r ih =>
    intro h acc
    have hc : isSpaceChar c = true := h c (by simp)
    have hr : ∀ d ∈ r, isSpaceChar d = true := fun d hd => h d (by simp [hd])
    have h0 : wordsAcc r [] = [] := by simpa [wordsAcc] using ih hr []
    by_cases ha : acc.isEmpty <;> simp [wordsAcc, hc, ha, h0]

theorem words_trailing_spaces :
    ∀ (m t : List Char), (∀ c ∈ t, isSpaceChar c = true) →
      ∀ acc, wordsAcc (m ++ t) acc = wordsAcc m acc := by
  intro m
  induction m with
  | nil => intro t ht acc; simpa using wordsAcc_spaces t ht acc
  | cons c r ih =>
    intro t ht acc
    by_cases hc : isSpaceChar c <;> by_cases ha : acc.isEmpty <;>
      simp [wordsAcc, hc, ha, ih t ht]

theorem words_leading_spaces :
    ∀ s : List Char, (∀ c ∈ s, isSpaceChar c = true) →
      ∀ y, wordsAcc (s ++ y) [] = wordsAcc y [] := by
  intro s
  induction s with
  | nil => intro _ _; rfl
  | cons c r ih =>
    intro h y
    have hc : isSpaceChar c = true := h c (by simp)
    have hr : ∀ d ∈ r, isSpaceChar d = true := fun d hd => h d (by simp [hd])
    simp [wordsAcc, hc, ih hr y]

theorem SW_pstrip (l : List Char) : SW (pstrip l) = SW l := by
  have h1 : l = l.takeWhile isSpaceChar ++ l.dropWhile isSpaceChar :=
    (List.takeWhile_append_dropWhile isSpaceChar l).symm
  have htw : ∀ c ∈ l.takeWhile isSpaceChar, isSpaceChar c = true :=
    fun c hc => List.mem_takeWhile_imp hc
  have h2 : l.dropWhile isSpaceChar =
      pstrip l ++ ((l.dropWhile isSpaceChar).reverse.takeWhile isSpaceChar).reverse := by
    conv_lhs => rw [← List.reverse_reverse (l.dropWhile isSpaceChar)]
    conv_lhs =>
      rw [← List.takeWhile_append_dropWhile isSpaceChar (l.dropWhile isSpaceChar).reverse]
    rw [List.reverse_append]
    rfl
  have htr : ∀ c ∈ ((l.dropWhile isSpaceChar).reverse.takeWhile isSpaceChar).reverse,
      isSpaceChar c = true := by
    intro c hc
    rw [List.mem_reverse] at hc
    exact List.mem_takeWhile_imp hc
  show words ((pstrip l).filter keepChar) = words (l.filter keepChar)
  conv_rhs => rw [h1]
  rw [List.filter_append, filter_keep_spaces _ htw]
  show words ((pstrip l).filter keepChar) =
    wordsAcc (l.takeWhile isSpaceChar ++ (l.dropWhile isSpaceChar).filter keepChar) []
  rw [words_leading_spaces _ htw]
  conv_rhs => rw [h2]
  rw [List.filter_append, filter_keep_spaces _ htr]
  exact (words_trailing_spaces _ _ htr _).symm

theorem SW_cons_space {c : Char} (h : isSpaceChar c = true) (x : List Char) :
    SW (c :: x) = SW x := by
  show words ((c :: x).filter keepChar) = words (x.filter keepChar)
  rw [List.filter_cons]
  simp only [keep_of_space h, if_true, cond_true]
  show wordsAcc (c :: x.filter keepChar) [] = wordsAcc (x.filter keepChar) []
  simp [wordsAcc, h]

theorem SW_cons_marker {c : Char} (h : keepChar c = false) (x : List Char) :
    SW (c :: x) = SW x := by
  show words ((c :: x).filter keepChar) = words (x.filter keepChar)
  rw [List.filter_cons]
  simp [h]

theorem filter_repl2 (p : Char → Bool) (a : Char) (hpa : p a = false) :
    ∀ x : List Char, (repl2 a a x).filter p = x.filter p := by
  have H : ∀ (n : Nat) (x : List Char), x.length ≤ n →
      (repl2 a a x).filter p = x.filter p := by
    intro n
    induction n with
    | zero =>
      intro x hx
      have : x = [] := List.length_eq_zero.mp (Nat.le_zero.mp hx)
      subst this
      rfl
    | succ n ih =>
      intro x hx
      match x with
      | [] => rfl
      | [c] => rfl
      | c :: d :: rest =>
        by_cases h : (c == a && d == a) = true
        · have hca : c = a := beq_iff_eq.mp (Bool.and_elim_left h)
          have hda : d = a := beq_iff_eq.mp (Bool.and_elim_right h)
          simp only [repl2, h, if_true]
          rw [ih rest (by simp at hx ⊢; omega)]
          subst hca hda
          simp [List.filter_cons, hpa]
        · rw [Bool.not_eq_true] at h
          have e : repl2 a a (c :: d :: rest) = c :: repl2 a a (d :: rest) := by
            simp [repl2, h]
          rw [e, List.filter_cons, List.filter_cons,
            ih (d :: rest) (by simp at hx ⊢; omega)]
  intro x
  exact H x.length x le_rfl

theorem removeEmph_eq_filter (l : List Char) :
    removeEmph l = l.filter fun c => !emphChar c := by
  show ((repl2 '_' '_' (repl2 '*' '*' l)).filter (fun c => !(c == '*'))).filter
      (fun c => !(c == '_')) = l.filter fun c => !emphChar c
  rw [List.filter_filter, filter_repl2 _ '_' (by rfl), filter_repl2 _ '*' (by rfl)]
  exact List.filter_congr fun c _ => by
    simp [emphChar, Bool.not_or, Bool.and_comm]

theorem filter_keep_removeEmph (l : List Char) :
    (removeEmph l).filter keepChar = l.filter keepChar := by
  rw [removeEmph_eq_filter, List.filter_filter]
  exact List.filter_congr fun c _ => by
    by_cases h1 : (c == '*') = true <;> by_cases h2 : (c == '_') = true <;>
      simp [keepChar, emphChar, h1, h2]

theorem SW_removeEmph (l : List Char) : SW (removeEmph l) = SW l := by
  show words ((removeEmph l).filter keepChar) = words (l.filter keepChar)
  rw [filter_keep_removeEmph]

theorem pfx_eq_true_iff : ∀ p s : List Char, pfx p s = true ↔ ∃ t, s = p ++ t := by
  intro p
  induction p with
  | nil =>
    intro s
    simp [pfx]
  | cons a ps ih =>
    intro s
    cases s with
    | nil => simp [pfx]
    | cons b bs =>
      rw [show pfx (a :: ps) (b :: bs) = (a == b && pfx ps bs) from rfl,
        Bool.and_eq_true, beq_iff_eq, ih bs]
      constructor
      · rintro ⟨rfl, t, rfl⟩
        exact ⟨t, rfl⟩
      · rintro ⟨t, ht⟩
        rw [List.cons_append] at ht
        obtain ⟨rfl, rfl⟩ := List.cons_eq_cons.mp ht
        exact ⟨rfl, t, rfl⟩

end Md

namespace Md

theorem classify_title (rest : List Char) :
    classifyStripped ('#' :: ' ' :: rest) = .Title (pstrip rest) := rfl

theorem classify_heading (rest : List Char) :
    classifyStripped ('#' :: '#' :: ' ' :: rest) = .Heading (pstrip rest) := rfl

theorem classify_subheading (rest : List Char) :
    classifyStripped ('#' :: '#' :: '#' :: ' ' :: rest) = .SubHeading (pstrip rest) := rfl

theorem classify_dash (rest : List Char) :
    classifyStripped ('-' :: ' ' :: rest) = .Bullet (pstrip rest) := rfl

theorem classify_star (rest : List Char) :
    classifyStripped ('*' :: ' ' :: rest) = .Bullet (pstrip rest) := rfl

theorem not_digit_beq {x c : Char} (hc : c.isDigit = true) (hx : x.isDigit = false) :
    (x == c) = false := by
  apply beq_eq_false_iff_ne.mpr
  intro e
  rw [e, hc] at hx
  cases hx

theorem classify_numbered (s : List Char) (h : isNumbered s = true) :
    classifyStripped s = .NumberedItem s := by
  cases s with
  | nil => simp [isNumbered, List.takeWhile] at h
  | cons c t =>
    have hd : Char.isDigit c = true := by
      cases hdc : Char.isDigit c
      · simp [isNumbered, List.takeWhile, hdc] at h
      · rfl
    have h1 : pfx ['#', ' '] (c :: t) = false := by
      simp [pfx, not_digit_beq hd (by rfl : Char.isDigit '#' = false)]
    have h2 : pfx ['#', '#', ' '] (c :: t) = false := by
      simp [pfx, not_digit_beq hd (by rfl : Char.isDigit '#' = false)]
    have h3 : pfx ['#', '#', '#', ' '] (c :: t) = false := by
      simp [pfx, not_digit_beq hd (by rfl : Char.isDigit '#' = false)]
    have h4 : pfx ['-', ' '] (c :: t) = false := by
      simp [pfx, not_digit_beq hd (by rfl : Char.isDigit '-' = false)]
    have h5 : pfx ['*', ' '] (c :: t) = false := by
      simp [pfx, not_digit_beq hd (by rfl : Char.isDigit '*' = false)]
    simp [classifyStripped, h1, h2, h3, h4, h5, h]

theorem SW_blockText (s : List Char) : SW (blockText (classifyStripped s)) = SW s := by
  by_cases h0 : s = []
  · subst h0; rfl
  by_cases h1 : pfx ['#', ' '] s = true
  · obtain ⟨t, rfl⟩ := (pfx_eq_true_iff _ _).mp h1
    rw [show (['#', ' '] ++ t) = '#' :: ' ' :: t from rfl, classify_title]
    show SW (pstrip t) = SW ('#' :: ' ' :: t)
    rw [SW_pstrip, SW_cons_marker (by rfl), SW_cons_space (by rfl)]
  by_cases h2 : pfx ['#', '#', ' '] s = true
  · obtain ⟨t, rfl⟩ := (pfx_eq_true_iff _ _).mp h2
    rw [show (['#', '#', ' '] ++ t) = '#' :: '#' :: ' ' :: t from rfl, classify_heading]
    show SW (pstrip t) = SW ('#' :: '#' :: ' ' :: t)
    rw [SW_pstrip, SW_cons_marker (by rfl), SW_cons_marker (by rfl), SW_cons_space (by rfl)]
  by_cases h3 : pfx ['#', '#', '#', ' '] s = true
  · obtain ⟨t, rfl⟩ := (pfx_eq_true_iff _ _).mp h3
    rw [show (['#', '#', '#', ' '] ++ t) = '#' :: '#' :: '#' :: ' ' :: t from rfl,
      classify_subheading]
    show SW (pstrip t) = SW ('#' :: '#' :: '#' :: ' ' :: t)
    rw [SW_pstrip, SW_cons_marker (by rfl), SW_cons_marker (by rfl),
      SW_cons_marker (by rfl), SW_cons_space (by rfl)]
  by_cases h4 : pfx ['-', ' '] s = true
  · obtain ⟨t, rfl⟩ := (pfx_eq_true_iff _ _).mp h4
    rw [show (['-', ' '] ++ t) = '-' :: ' ' :: t from rfl, classify_dash]
    show SW ('•' :: ' ' :: pstrip t) = SW ('-' :: ' ' :: t)
    rw [SW_cons_marker (by rfl), SW_cons_space (by rfl), SW_pstrip,
      SW_cons_marker (by rfl), SW_cons_space (by rfl)]
  by_cases h5 : pfx ['*', ' '] s = true
  · obtain ⟨t, rfl⟩ := (pfx_eq_true_iff _ _).mp h5
    rw [show (['*', ' '] ++ t) = '*' :: ' ' :: t from rfl, classify_star]
    show SW ('•' :: ' ' :: pstrip t) = SW ('*' :: ' ' :: t)
    rw [SW_cons_marker (by rfl), SW_cons_space (by rfl), SW_pstrip,
      SW_cons_marker (by rfl), SW_cons_space (by rfl)]
  by_cases h6 : isNumbered s = true
  · rw [classify_numbered s h6]
    rfl
  · have e : classifyStripped s = .Plain (removeEmph s) := by
      simp only [classifyStripped, if_neg h0, Bool.or_eq_true]
      rw [if_neg h1, if_neg h2, if_neg h3, if_neg (by tauto), if_neg h6]
    rw [e]
    exact SW_removeEmph s

theorem isBlankBlock_classify (s : List Char) :
    isBlankBlock (classifyStripped s) = s.isEmpty := by
  cases s with
  | nil => rfl
  | cons c t =>
    show isBlankBlock (classifyStripped (c :: t)) = false
    rw [classifyStripped, if_neg (List.cons_ne_nil c t)]
    split
    · rfl
    split
    · rfl
    split
    · rfl
    split
    · rfl
    split
    · rfl
    · rfl

theorem not_emph_of_space {c : Char} (h : isSpaceChar c = true) : emphChar c = false := by
  simp only [isSpaceChar, Bool.or_eq_true, beq_iff_eq] at h
  rcases h with ((((h | h) | h) | h) | h) | h <;> subst h <;> rfl

theorem emph_spaces_zero (t : List Char) (ht : ∀ c ∈ t, isSpaceChar c = true) :
    t.countP emphChar = 0 := by
  induction t with
  | nil => rfl
  | cons c r ih =>
    simp [List.countP_cons, not_emph_of_space (ht c (by simp)),
      ih fun d hd => ht d (by simp [hd])]

theorem emphCount_pstrip (l : List Char) : emphCount (pstrip l) = emphCount l := by
  have h1 : l = l.takeWhile isSpaceChar ++ l.dropWhile isSpaceChar :=
    (List.takeWhile_append_dropWhile isSpaceChar l).symm
  have htw : ∀ c ∈ l.takeWhile isSpaceChar, isSpaceChar c = true :=
    fun c hc => List.mem_takeWhile_imp hc
  have h2 : l.dropWhile isSpaceChar =
      pstrip l ++ ((l.dropWhile isSpaceChar).reverse.takeWhile isSpaceChar).reverse := by
    conv_lhs => rw [← List.reverse_reverse (l.dropWhile isSpaceChar)]
    conv_lhs =>
      rw [← List.takeWhile_append_dropWhile isSpaceChar (l.dropWhile isSpaceChar).reverse]
    rw [List.reverse_append]
    rfl
  have htr : ∀ c ∈ ((l.dropWhile isSpaceChar).reverse.takeWhile isSpaceChar).reverse,
      isSpaceChar c = true := by
    intro c hc
    rw [List.mem_reverse] at hc
    exact List.mem_takeWhile_imp hc
  show (pstrip l).countP emphChar = l.countP emphChar
  conv_rhs => rw [h1, List.countP_append, h2, List.countP_append]
  rw [emph_spaces_zero _ htw, emph_spaces_zero _ htr]
  omega

theorem count_hash_removeEmph (s : List Char) : (removeEmph s).count '#' = s.count '#' := by
  rw [removeEmph_eq_filter]
  induction s with
  | nil => rfl
  | cons c t ih =>
    rw [List.filter_cons]
    by_cases hc : emphChar c = true
    · have hne : (c == '#') = false := by
        simp only [emphChar, Bool.or_eq_true, beq_iff_eq] at hc
        rcases hc with h | h <;> subst h <;> rfl
      simp [hc, List.count_cons, hne, ih]
    · rw [Bool.not_eq_true] at hc
      simp [hc, List.count_cons, ih]

end Md

namespace PdfUtils

open Md (pstrip pfx)

theorem paraTexts_append (a b : List FbItem) :
    paraTexts (a ++ b) = paraTexts a ++ paraTexts b :=
  List.filterMap_append a b _

theorem paraTexts_fbStrippedItems (line : List Char) :
    paraTexts (fbStrippedItems line) =
      if line.isEmpty then [] else [fbText line] := by
  by_cases h1 : pfx ['#', ' '] line = true
  · obtain ⟨t, rfl⟩ := (Md.pfx_eq_true_iff _ _).mp h1
    simp [fbStrippedItems, fbText, paraTexts,
      show pfx ['#', ' '] ('#' :: ' ' :: t) = true from rfl]
  by_cases h2 : pfx ['#', '#', ' '] line = true
  · obtain ⟨t, rfl⟩ := (Md.pfx_eq_true_iff _ _).mp h2
    simp [fbStrippedItems, fbText, paraTexts,
      show pfx ['#', ' '] ('#' :: '#' :: ' ' :: t) = false from rfl,
      show pfx ['#', '#', ' '] ('#' :: '#' :: ' ' :: t) = true from rfl]
  by_cases h3 : pfx ['#', '#', '#', ' '] line = true
  · obtain ⟨t, rfl⟩ := (Md.pfx_eq_true_iff _ _).mp h3
    simp [fbStrippedItems, fbText, paraTexts,
      show pfx ['#', ' '] ('#' :: '#' :: '#' :: ' ' :: t) = false from rfl,
      show pfx ['#', '#', ' '] ('#' :: '#' :: '#' :: ' ' :: t) = false from rfl,
      show pfx ['#', '#', '#', ' '] ('#' :: '#' :: '#' :: ' ' :: t) = true from rfl]
  by_cases h4 : line.isEmpty
  · simp [fbStrippedItems, fbText, paraTexts, h1, h2, h3, h4]
  · simp [fbStrippedItems, fbText, paraTexts, h1, h2, h3, h4]

theorem paraTexts_fallbackStory (lines : List (List Char)) :
    paraTexts (fallbackStory lines) =
      ((lines.map pstrip).filter fun l => !l.isEmpty).map fbText := by
  induction lines with
  | nil => rfl
  | cons l ls ih =>
    show paraTexts (fbLineItems l ++ ls.flatMap fbLineItems) = _
    rw [paraTexts_append, fbLineItems, paraTexts_fbStrippedItems,
      show ls.flatMap fbLineItems = fallbackStory ls from rfl, ih,
      List.map_cons, List.filter_cons]
    by_cases h : (pstrip l).isEmpty <;> simp [h]

end PdfUtils

namespace Pipeline

theorem runTasks_cons_error (exec : Exec) (t : TaskSpec) (rest : List TaskSpec)
    (results files : List (String × String)) (trace : List (String × List String))
    (e : String) (h : exec t (contextTexts results t.context) = .error e) :
    runTasks exec (t :: rest) results files trace =
      ⟨results, files, trace ++ [(t.id, contextTexts results t.context)], some e⟩ := by
  simp only [runTasks, h]

theorem runTasks_cons_ok (exec : Exec) (t : TaskSpec) (rest : List TaskSpec)
    (results files : List (String × String)) (trace : List (String × List String))
    (txt : String) (h : exec t (contextTexts results t.context) = .ok txt) :
    runTasks exec (t :: rest) results files trace =
      runTasks exec rest (results ++ [(t.id, txt)])
        (match t.output_file with
         | some f => files ++ [(f, txt)]
         | none => files)
        (trace ++ [(t.id, contextTexts results t.context)]) := by
  simp only [runTasks, h]

theorem runTasks_trace_mono (exec : Exec) :
    ∀ (tasks : List TaskSpec) (results files : List (String × String))
      (tr : List (String × List String)) (n : Nat), n < tr.length →
      ((runTasks exec tasks results files tr).trace)[n]? = tr[n]? := by
  intro tasks
  induction tasks with
  | nil => intro results files tr n _; rfl
  | cons t rest ih =>
    intro results files tr n hn
    cases h : exec t (contextTexts results t.context) with
    | error e =>
      rw [runTasks_cons_error exec t rest results files tr e h]
      exact List.getElem?_append_left hn
    | ok txt =>
      rw [runTasks_cons_ok exec t rest results files tr txt h,
        ih _ _ _ n (by simp; omega)]
      exact List.getElem?_append_left hn

theorem runTasks_trace_next (exec : Exec) (t : TaskSpec) (rest : List TaskSpec)
    (results files : List (String × String)) (tr : List (String × List String)) :
    ((runTasks exec (t :: rest) results files tr).trace)[tr.length]? =
      some (t.id, contextTexts results t.context) := by
  cases h : exec t (contextTexts results t.context) with
  | error e =>
    rw [runTasks_cons_error exec t rest results files tr e h]
    exact List.getElem?_concat_length tr _
  | ok txt =>
    rw [runTasks_cons_ok exec t rest results files tr txt h,
      runTasks_trace_mono exec rest _ _ _ tr.length (by simp)]
    exact List.getElem?_concat_length tr _

end Pipeline

/-! The claim theorems. -/

/-- C1: every markdown input line (blank lines included) is classified
into exactly one Block — `classifyLine` is a total function, and it
yields `Blank` exactly on lines whose stripped form is empty — and the
semantic words of every emitted block's literal text are exactly the
semantic words of the input line, so concatenating the blocks' texts
reconstructs the non-blank, non-marker content of the input: stripping
the markers `#`, `- `, `**`, `*`, `__`, `_` never removes semantic words
from any line. -/
theorem claim_c1_roundtrip :
    (∀ l : List Char, Md.SW (Md.blockText (Md.classifyLine l)) = Md.SW l) ∧
    (∀ l : List Char, Md.isBlankBlock (Md.classifyLine l) = (Md.pstrip l).isEmpty) ∧
    (∀ content : List Char,
      ((Md.renderBlocks content).map fun b => Md.SW (Md.blockText b)).flatten =
        ((Md.splitLines content).map Md.SW).flatten) := by
  have hline : ∀ l : List Char, Md.SW (Md.blockText (Md.classifyLine l)) = Md.SW l := by
    intro l
    rw [Md.classifyLine, Md.SW_blockText, Md.SW_pstrip]
  refine ⟨hline, fun l => Md.isBlankBlock_classify (Md.pstrip l), fun content => ?_⟩
  rw [Md.renderBlocks, List.map_map]
  congr 1
  exact List.map_congr_left fun l _ => hline l

/-- C2 counterexample: with the LLM key present and the search key
missing, `check_api_keys` returns `False` and the handler stops before
the run — the pipeline does not start, contrary to the claim. -/
theorem claim_c2_counterexample :
    Pipeline.processStarts (some "groq-key") none = false := rfl

/-- C2 amended: absence of either credential is fatal: the run starts
exactly when both the LLM key and the search key are truthy
(`check_api_keys` requires both, and the handler stops on `False`). -/
theorem claim_c2_amended :
    ∀ groq serper : Option String,
      Pipeline.processStarts groq serper =
        (Pipeline.pyTruthy groq && Pipeline.pyTruthy serper) := by
  intro g s
  unfold Pipeline.processStarts Pipeline.check_api_keys
  cases hg : Pipeline.pyTruthy g <;> cases hs : Pipeline.pyTruthy s <;> simp [hg, hs]

/-- C3 counterexample: on the scenario input the renderer does not
produce the claimed five-block sequence — the trailing newline yields a
sixth, trailing `Blank` block. -/
theorem claim_c3_counterexample :
    Md.renderBlocks ("# John Doe\n\n## Experience\n- Built X\n- Built Y\n".toList) ≠
      [Md.Block.Title ("John Doe".toList), Md.Block.Blank,
       Md.Block.Heading ("Experience".toList), Md.Block.Bullet ("Built X".toList),
       Md.Block.Bullet ("Built Y".toList)] := by
  decide

/-- C3 amended: for the scenario input the renderer produces exactly
[Title("John Doe"), Blank, Heading("Experience"), Bullet("Built X"),
Bullet("Built Y"), Blank] — the same five blocks in order, followed by
one trailing Blank arising from the final newline of the input. -/
theorem claim_c3_amended :
    Md.renderBlocks ("# John Doe\n\n## Experience\n- Built X\n- Built Y\n".toList) =
      [Md.Block.Title ("John Doe".toList), Md.Block.Blank,
       Md.Block.Heading ("Experience".toList), Md.Block.Bullet ("Built X".toList),
       Md.Block.Bullet ("Built Y".toList), Md.Block.Blank] := by
  decide

/-- C4 counterexample: the fallback renderer does not restrict itself to
three style levels — on an input exercising all branches its story uses
four distinct styles (Heading1, Heading2, Heading3, Normal). -/
theorem claim_c4_counterexample :
    3 < ((PdfUtils.paraStyles (PdfUtils.fallbackStory
      ["# a".toList, "## b".toList, "### c".toList, "d".toList])).dedup).length := by
  decide

/-- C4 amended: if the primary PDF layout engine fails, the renderer
falls back to the basic text-flow renderer, which uses four style levels
(three heading levels plus body) instead of five; every non-blank input
line's content (its stripped text with the heading marker, if any,
removed) appears in the fallback output, in order; and if the fallback
also fails, no PDF bytes are produced (the function yields None). -/
theorem claim_c4_amended :
    (∀ lines : List (List Char),
      PdfUtils.markdown_to_ats_pdf none true lines =
        some (PdfUtils.PdfResult.fallbackDoc (PdfUtils.fallbackStory lines))) ∧
    (∀ lines : List (List Char),
      PdfUtils.markdown_to_ats_pdf none false lines = none) ∧
    (∀ lines : List (List Char),
      PdfUtils.paraTexts (PdfUtils.fallbackStory lines) =
        ((lines.map Md.pstrip).filter fun l => !l.isEmpty).map PdfUtils.fbText) :=
  ⟨fun _ => rfl, fun _ => rfl, PdfUtils.paraTexts_fallbackStory⟩

/-- C5 counterexample: the handler's remediation hint is not
pattern-matched on the error text — a rate-limit error (with the numeric
code in its message) receives exactly the same fixed hint as an
unrelated error, so no rate-limit-specific message exists. -/
theorem claim_c5_counterexample :
    (Pipeline.handle_run_error "RateLimitError: 429 Too Many Requests").hint =
      (Pipeline.handle_run_error "ConnectionError: connection reset").hint ∧
    (Pipeline.handle_run_error "RateLimitError: 429 Too Many Requests").hint =
      "💡 Try checking your API keys or simplifying your inputs" :=
  ⟨rfl, rfl⟩

/-- C5 amended: every delegated-execution error is surfaced with a
human-readable message embedding the stringified exception, together
with its detail and one fixed generic remediation hint that does not
depend on the error kind. -/
theorem claim_c5_amended :
    ∀ e : String,
      (Pipeline.handle_run_error e).message = "❌ An error occurred: " ++ e ∧
      (Pipeline.handle_run_error e).detail = e ∧
      ∀ e2 : String,
        (Pipeline.handle_run_error e).hint = (Pipeline.handle_run_error e2).hint :=
  fun _ => ⟨rfl, rfl, fun _ => rfl⟩

/-- C6: if the job-analysis step raises, the whole run aborts: no output
file (neither tailored_resume.md nor interview_materials.md) is written,
the engine is called for the job-analysis step only — the downstream
resume-writing and interview-question steps never execute — and the
error is the recorded failure. -/
theorem claim_c6_abort (exec : Pipeline.Exec) (ju gh wu rf e : String)
    (h : exec (Pipeline.research_task ju) [] = .error e) :
    (Pipeline.runCrew exec ju gh wu rf).files = [] ∧
    (Pipeline.runCrew exec ju gh wu rf).trace = [("research_task", [])] ∧
    (Pipeline.runCrew exec ju gh wu rf).failure = some e := by
  have e1 : exec (Pipeline.research_task ju)
      (Pipeline.contextTexts [] (Pipeline.research_task ju).context) = .error e := h
  unfold Pipeline.runCrew Pipeline.crewTasks
  rw [Pipeline.runTasks_cons_error _ _ _ _ _ _ _ e1]
  exact ⟨rfl, rfl, rfl⟩

/-- C6 witness: a concrete run whose engine raises a rate-limit error on
the job-analysis step writes no files and executes only that step. -/
theorem claim_c6_witness :
    (Pipeline.runCrew Pipeline.execFailJob "https://example.com/job"
      "https://github.com/u" "about me" "resume.pdf").files = [] ∧
    (Pipeline.runCrew Pipeline.execFailJob "https://example.com/job"
      "https://github.com/u" "about me" "resume.pdf").trace = [("research_task", [])] ∧
    (Pipeline.runCrew Pipeline.execFailJob "https://example.com/job"
      "https://github.com/u" "about me" "resume.pdf").failure =
        some "RateLimitError: 429 Too Many Requests" :=
  claim_c6_abort Pipeline.execFailJob "https://example.com/job" "https://github.com/u"
    "about me" "resume.pdf" "RateLimitError: 429 Too Many Requests" rfl

/-- C7: in every run where the job-analysis and profiling steps produce
outputs r and p, the resume-writing step receives as its input context
exactly [r, p]: the full, untruncated text of both outputs, with the
job-analysis output placed before the profiling output. -/
theorem claim_c7_context (exec : Pipeline.Exec) (ju gh wu rf r p : String)
    (h1 : exec (Pipeline.research_task ju) [] = .ok r)
    (h2 : exec (Pipeline.profile_task gh wu rf) [] = .ok p) :
    ((Pipeline.runCrew exec ju gh wu rf).trace)[2]? =
      some ("resume_strategy_task", [r, p]) := by
  have e1 : exec (Pipeline.research_task ju)
      (Pipeline.contextTexts [] (Pipeline.research_task ju).context) = .ok r := h1
  unfold Pipeline.runCrew Pipeline.crewTasks
  rw [Pipeline.runTasks_cons_ok _ _ _ _ _ _ _ e1]
  have e2 : exec (Pipeline.profile_task gh wu rf)
      (Pipeline.contextTexts ([] ++ [((Pipeline.research_task ju).id, r)])
        (Pipeline.profile_task gh wu rf).context) = .ok p := h2
  rw [Pipeline.runTasks_cons_ok _ _ _ _ _ _ _ e2]
  exact Pipeline.runTasks_trace_next exec _ _ _ _ _

/-- C7 witness: a concrete all-successful run hands the resume-writing
step the context [job-analysis output, profiling output]. -/
theorem claim_c7_witness :
    ((Pipeline.runCrew Pipeline.execAllOk "https://example.com/job"
      "https://github.com/u" "about me" "resume.pdf").trace)[2]? =
      some ("resume_strategy_task", ["canned output", "canned output"]) :=
  claim_c7_context Pipeline.execAllOk "https://example.com/job" "https://github.com/u"
    "about me" "resume.pdf" "canned output" "canned output" rfl rfl

/-- C8: a stripped line beginning with `- ` or `* ` becomes a Bullet
block carrying the whitespace-trimmed remainder, and its emitted text
replaces the two-character marker with the leading bullet glyph; a
stripped line matching the numbered pattern becomes a NumberedItem block
whose text is the entire line, the numeric marker preserved verbatim. -/
theorem claim_c8_bullets :
    (∀ rest : List Char,
      Md.classifyStripped ('-' :: ' ' :: rest) = Md.Block.Bullet (Md.pstrip rest)) ∧
    (∀ rest : List Char,
      Md.classifyStripped ('*' :: ' ' :: rest) = Md.Block.Bullet (Md.pstrip rest)) ∧
    (∀ t : List Char, Md.blockText (Md.Block.Bullet t) = '•' :: ' ' :: t) ∧
    (∀ s : List Char, Md.isNumbered s = true →
      Md.classifyStripped s = Md.Block.NumberedItem s ∧
        Md.blockText (Md.Block.NumberedItem s) = s) :=
  ⟨Md.classify_dash, Md.classify_star, fun _ => rfl,
   fun s h => ⟨Md.classify_numbered s h, rfl⟩⟩

/-- C8 witness: the numbered line `10. Item` is classified as a
NumberedItem whose text is the whole line. -/
theorem claim_c8_witness :
    Md.classifyStripped ("10. Item".toList) = Md.Block.NumberedItem ("10. Item".toList) ∧
    Md.blockText (Md.Block.NumberedItem ("10. Item".toList)) = "10. Item".toList :=
  claim_c8_bullets.2.2.2 ("10. Item".toList) (by decide)

/-- C9: emphasis markers are stripped only on Plain lines: for each of
the Title, Heading, SubHeading and Bullet patterns the emitted block
text keeps every emphasis-marker character of the line's content, and a
NumberedItem's text is the whole line verbatim. -/
theorem claim_c9_emphasis :
    (∀ rest : List Char,
      Md.emphCount (Md.blockText (Md.classifyStripped ('#' :: ' ' :: rest))) =
        Md.emphCount rest) ∧
    (∀ rest : List Char,
      Md.emphCount (Md.blockText (Md.classifyStripped ('#' :: '#' :: ' ' :: rest))) =
        Md.emphCount rest) ∧
    (∀ rest : List Char,
      Md.emphCount (Md.blockText (Md.classifyStripped ('#' :: '#' :: '#' :: ' ' :: rest))) =
        Md.emphCount rest) ∧
    (∀ rest : List Char,
      Md.emphCount (Md.blockText (Md.classifyStripped ('-' :: ' ' :: rest))) =
        Md.emphCount rest) ∧
    (∀ rest : List Char,
      Md.emphCount (Md.blockText (Md.classifyStripped ('*' :: ' ' :: rest))) =
        Md.emphCount rest) ∧
    (∀ s : List Char, Md.isNumbered s = true →
      Md.blockText (Md.classifyStripped s) = s) := by
  refine ⟨fun rest => ?_, fun rest => ?_, fun rest => ?_, fun rest => ?_, fun rest => ?_,
    fun s h => ?_⟩
  · rw [Md.classify_title]
    exact Md.emphCount_pstrip rest
  · rw [Md.classify_heading]
    exact Md.emphCount_pstrip rest
  · rw [Md.classify_subheading]
    exact Md.emphCount_pstrip rest
  · rw [Md.classify_dash]
    show ('•' :: ' ' :: Md.pstrip rest).countP Md.emphChar = Md.emphCount rest
    rw [List.countP_cons, List.countP_cons]
    have h := Md.emphCount_pstrip rest
    simp only [Md.emphCount] at h
    simp [h, Md.emphCount, show Md.emphChar ' ' = false from rfl,
      show Md.emphChar '\u2022' = false from rfl]
  · rw [Md.classify_star]
    show ('•' :: ' ' :: Md.pstrip rest).countP Md.emphChar = Md.emphCount rest
    rw [List.countP_cons, List.countP_cons]
    have h := Md.emphCount_pstrip rest
    simp only [Md.emphCount] at h
    simp [h, Md.emphCount, show Md.emphChar ' ' = false from rfl,
      show Md.emphChar '\u2022' = false from rfl]
  · rw [Md.classify_numbered s h]
    rfl

/-- C9 witness: the numbered line `1. **x**` keeps its emphasis markers
verbatim in the emitted text. -/
theorem claim_c9_witness :
    Md.blockText (Md.classifyStripped ("1. **x**".toList)) = "1. **x**".toList :=
  claim_c9_emphasis.2.2.2.2.2 ("1. **x**".toList) (by decide)

/-- C10: a stripped line of four or more `#` characters followed by a
space matches none of the Title, Heading or SubHeading patterns and is
classified as Plain: its emitted text is the line with the emphasis
markers removed (exactly the characters `*` and `_`), so every `#` of
the line is kept. -/
theorem claim_c10_hashes (s rest : List Char) (k : Nat)
    (hs : s = List.replicate (k + 4) '#' ++ (' ' :: rest)) :
    Md.classifyStripped s = Md.Block.Plain (Md.removeEmph s) ∧
    Md.removeEmph s = s.filter (fun c => !Md.emphChar c) ∧
    (Md.removeEmph s).count '#' = s.count '#' := by
  have e : s = '#' :: '#' :: '#' :: '#' :: (List.replicate k '#' ++ (' ' :: rest)) := by
    rw [hs]
    rfl
  refine ⟨?_, Md.removeEmph_eq_filter s, Md.count_hash_removeEmph s⟩
  rw [e]
  rfl

/-- C10 witness: the line `#### **x**` is classified Plain, its `#`
characters kept and its emphasis markers stripped. -/
theorem claim_c10_witness :
    Md.classifyStripped ("#### **x**".toList) =
      Md.Block.Plain (Md.removeEmph ("#### **x**".toList)) ∧
    Md.removeEmph ("#### **x**".toList) =
      ("#### **x**".toList).filter (fun c => !Md.emphChar c) ∧
    (Md.removeEmph ("#### **x**".toList)).count '#' = ("#### **x**".toList).count '#' :=
  claim_c10_hashes ("#### **x**".toList) ("**x**".toList) 0 (by decide)
